import Mathlib

/-!
Shallow embedding of the data-cleaning-and-validation pipeline
(`src/utils.py`, `src/rules.py`, `src/clean_validate.py`).

Tables are modelled as ordered lists of rows; a row is an association list
from column names to dynamically typed values.  Pandas floats are modelled
as exact rationals; missing values (NaN / NaT / pd.NA) are `Value.null`.
-/

/-- Whitespace characters matched by a Python regex `\s` (ASCII range). -/
def isSpaceChar (c : Char) : Bool :=
  c = ' ' || c = '\t' || c = '\n' || c = '\r' || c = '\x0b' || c = '\x0c'

/-- The decimal digit character for `d` (used for `d < 10`). -/
def digitChar (d : Nat) : Char :=
  match d with
  | 0 => '0' | 1 => '1' | 2 => '2' | 3 => '3' | 4 => '4'
  | 5 => '5' | 6 => '6' | 7 => '7' | 8 => '8' | _ => '9'

/-- Numeric value of a digit character. -/
def dval (c : Char) : Nat := c.toNat - 48

/-- Fuel-driven digit extraction (structural recursion on the fuel, so
concrete instances reduce inside the kernel). -/
def natToDigitsAux : Nat → Nat → List Char
  | 0, _ => []
  | fuel + 1, n =>
    if n < 10 then [digitChar n]
    else natToDigitsAux fuel (n / 10) ++ [digitChar (n % 10)]

/-- Decimal digit string of a natural number, most significant digit first
(the way Python's `str` renders the integral part of a number). -/
def natToDigits (n : Nat) : List Char :=
  natToDigitsAux (n + 1) n

theorem natToDigitsAux_eq (f1 : Nat) :
    ∀ f2 n, n < f1 → n < f2 → natToDigitsAux f1 n = natToDigitsAux f2 n := by
  induction f1 with
  | zero => intro f2 n h1 _; omega
  | succ f1 ih =>
    intro f2 n h1 h2
    cases f2 with
    | zero => omega
    | succ f2 =>
      show (if n < 10 then [digitChar n]
          else natToDigitsAux f1 (n / 10) ++ [digitChar (n % 10)])
        = (if n < 10 then [digitChar n]
          else natToDigitsAux f2 (n / 10) ++ [digitChar (n % 10)])
      by_cases h : n < 10
      · rw [if_pos h, if_pos h]
      · rw [if_neg h, if_neg h]
        have hd : n / 10 < n := Nat.div_lt_self (by omega) (by omega)
        rw [ih f2 (n / 10) (by omega) (by omega)]

/-- The recursion equation of the fuelled `natToDigits`. -/
theorem natToDigits_eq (n : Nat) :
    natToDigits n
      = if n < 10 then [digitChar n]
        else natToDigits (n / 10) ++ [digitChar (n % 10)] := by
  have hstep : natToDigits n
      = if n < 10 then [digitChar n]
        else natToDigitsAux n (n / 10) ++ [digitChar (n % 10)] := rfl
  rw [hstep]
  by_cases h : n < 10
  · rw [if_pos h, if_pos h]
  · rw [if_neg h, if_neg h]
    have hd : n / 10 < n := Nat.div_lt_self (by omega) (by omega)
    rw [natToDigitsAux_eq n (n / 10 + 1) (n / 10) hd (by omega)]
    rfl

/-- Value of a digit string read most significant digit first. -/
def natVal (l : List Char) : Nat :=
  l.foldl (fun a c => 10 * a + dval c) 0

theorem natVal_append (l : List Char) (c : Char) :
    natVal (l ++ [c]) = 10 * natVal l + dval c := by
  simp [natVal, List.foldl_append]

theorem dval_digitChar (d : Nat) (h : d < 10) : dval (digitChar d) = d := by
  interval_cases d <;> decide

theorem isDigit_digitChar (d : Nat) (h : d < 10) : (digitChar d).isDigit = true := by
  interval_cases d <;> decide

theorem natToDigits_ne_nil (n : Nat) : natToDigits n ≠ [] := by
  rw [natToDigits_eq]
  split <;> simp

theorem natVal_natToDigits (n : Nat) : natVal (natToDigits n) = n := by
  induction n using Nat.strong_induction_on with
  | _ n ih =>
    rw [natToDigits_eq]
    split
    · next h =>
      simp [natVal, dval_digitChar n h]
    · next h =>
      rw [natVal_append, ih (n / 10) (Nat.div_lt_self (by omega) (by omega)),
        dval_digitChar (n % 10) (Nat.mod_lt _ (by omega))]
      omega

theorem natToDigits_all_digit (n : Nat) :
    ∀ c ∈ natToDigits n, c.isDigit = true := by
  induction n using Nat.strong_induction_on with
  | _ n ih =>
    rw [natToDigits_eq]
    split
    · next h =>
      intro c hc
      simp at hc
      simp [hc, isDigit_digitChar n h]
    · next h =>
      intro c hc
      simp at hc
      rcases hc with hc | hc
      · exact ih (n / 10) (Nat.div_lt_self (by omega) (by omega)) c hc
      · simp [hc, isDigit_digitChar (n % 10) (Nat.mod_lt _ (by omega))]

theorem natToDigits_length_le (n : Nat) :
    ∀ k, 1 ≤ k → n < 10 ^ k → (natToDigits n).length ≤ k := by
  induction n using Nat.strong_induction_on with
  | _ n ih =>
    intro k hk h
    rw [natToDigits_eq]
    split
    · simpa using hk
    · next hn =>
      have hk2 : 2 ≤ k := by
        by_contra hc
        have hk1 : k = 1 := by omega
        subst hk1
        simp at h
        omega
      have h10 : (10:ℕ) ^ k = 10 * 10 ^ (k - 1) := by
        conv_lhs => rw [show k = 1 + (k - 1) by omega]
        rw [pow_add, pow_one]
      have hdiv : n / 10 < 10 ^ (k - 1) :=
        Nat.div_lt_of_lt_mul (by omega)
      have := ih (n / 10) (Nat.div_lt_self (by omega) (by omega)) (k - 1) (by omega) hdiv
      simp only [List.length_append, List.length_cons, List.length_nil]
      omega

theorem digit_ne_dot {c : Char} (h : c.isDigit = true) : c ≠ '.' := by
  intro he
  subst he
  simp [Char.isDigit] at h

theorem digit_ne_dash {c : Char} (h : c.isDigit = true) : c ≠ '-' := by
  intro he
  subst he
  simp [Char.isDigit] at h

theorem digit_ne_comma {c : Char} (h : c.isDigit = true) : c ≠ ',' := by
  intro he
  subst he
  simp [Char.isDigit] at h

/-- Reading leading zero digits does not change the value of a digit string. -/
theorem natVal_replicate_zero (z : Nat) (l : List Char) :
    natVal (List.replicate z '0' ++ l) = natVal l := by
  induction z with
  | zero => simp
  | succ z ih =>
    simp only [List.replicate_succ, List.cons_append]
    show natVal (List.replicate z '0' ++ l) = natVal l
    exact ih

/-- Split a character list at its first dot: `some (before, after)` when a
dot occurs, `none` otherwise. -/
def splitFirstDot : List Char → Option (List Char × List Char)
  | [] => none
  | c :: t =>
    if c = '.' then some ([], t)
    else (splitFirstDot t).map (fun p => (c :: p.1, p.2))

theorem splitFirstDot_append (as bs : List Char) (h : '.' ∉ as) :
    splitFirstDot (as ++ '.' :: bs) = some (as, bs) := by
  induction as with
  | nil => simp [splitFirstDot]
  | cons c t ih =>
    simp only [List.mem_cons, not_or] at h
    simp only [List.cons_append, splitFirstDot]
    rw [if_neg (fun he => h.1 he.symm)]
    show Option.map (fun p => (c :: p.1, p.2)) (splitFirstDot (t ++ '.' :: bs)) = _
    rw [ih h.2]
    rfl

/-- Parser for the character strings that reach `pd.to_numeric` in
`coerce_numeric` (after stripping, such a string holds only digits, `-`,
`.`): an optional leading minus sign, then digits with at most one dot and
at least one digit in total, as accepted by Python's float parsing
(`"5."`, `".5"` parse; `""`, `"."`, `"1.2.3"`, `"1-2"` do not).
Unparseable strings yield `none` (pandas `errors="coerce"` gives NaN). -/
def parseUnsignedChars (ds : List Char) : Option ℚ :=
  match splitFirstDot ds with
  | none =>
    if ds ≠ [] ∧ ∀ c ∈ ds, c.isDigit then some (natVal ds : ℚ) else none
  | some (as, bs) =>
    if '.' ∉ bs ∧ (∀ c ∈ as, c.isDigit) ∧ (∀ c ∈ bs, c.isDigit) ∧ as ++ bs ≠ []
    then some ((natVal as : ℚ) + (natVal bs : ℚ) / 10 ^ bs.length)
    else none

def parseDecChars (cs : List Char) : Option ℚ :=
  match cs with
  | [] => none
  | c :: t =>
    if c = '-' then (parseUnsignedChars t).map Neg.neg
    else parseUnsignedChars (c :: t)

/-- A number dividing some power of ten divides the power of ten with its
own value as exponent (its 2- and 5-adic valuations are below itself). -/
theorem dvd_ten_pow_self {d K : ℕ} (h : d ∣ 10 ^ K) : d ∣ 10 ^ d := by
  have h10K : (10:ℕ) ^ K ≠ 0 := pow_ne_zero _ (by norm_num)
  have hd0 : d ≠ 0 := by
    rintro rfl
    exact h10K (Nat.eq_zero_of_zero_dvd h)
  rw [← Nat.factorization_le_iff_dvd hd0 (pow_ne_zero _ (by norm_num)),
    Finsupp.le_def]
  intro p
  by_cases hp : p ∈ d.factorization.support
  · have hprime : p.Prime :=
      Nat.prime_of_mem_primeFactors (by rwa [Nat.support_factorization] at hp)
    have hdvdd : p ^ d.factorization p ∣ d := Nat.ordProj_dvd d p
    have hlt : d.factorization p < d := by
      have h1 : d.factorization p < p ^ d.factorization p :=
        Nat.lt_pow_self hprime.one_lt _
      have h2 : p ^ d.factorization p ≤ d :=
        Nat.le_of_dvd (Nat.pos_of_ne_zero hd0) hdvdd
      omega
    have hK : d.factorization p ≤ K * (10:ℕ).factorization p := by
      have hle := (Nat.factorization_le_iff_dvd hd0 h10K).mpr h
      have hle2 := Finsupp.le_def.mp hle p
      rwa [Nat.factorization_pow, Finsupp.smul_apply, smul_eq_mul] at hle2
    have hpos : 0 < d.factorization p := by
      rw [Finsupp.mem_support_iff] at hp
      omega
    have h10p : 1 ≤ (10:ℕ).factorization p := by
      by_contra hc
      have hz : (10:ℕ).factorization p = 0 := by omega
      rw [hz, Nat.mul_zero] at hK
      omega
    rw [Nat.factorization_pow, Finsupp.smul_apply, smul_eq_mul]
    calc d.factorization p ≤ d * 1 := by omega
    _ ≤ d * (10:ℕ).factorization p := Nat.mul_le_mul_left d h10p
  · have hz : d.factorization p = 0 := Finsupp.not_mem_support_iff.mp hp
    simp [hz]

/-- Fuelled linear search for the first `k ≥ start` with `d ∣ 10 ^ k`
(structural recursion on the fuel, so it reduces in the kernel and stops
as soon as the divisor is found). -/
def findExp (d : Nat) : Nat → Nat → Option Nat
  | 0, _ => none
  | fuel + 1, start =>
    if d ∣ 10 ^ start then some start else findExp d fuel (start + 1)

theorem findExp_found (d : Nat) :
    ∀ fuel start, (∃ j, start ≤ j ∧ j < start + fuel ∧ d ∣ 10 ^ j) →
      ∃ k, findExp d fuel start = some k ∧ d ∣ 10 ^ k := by
  intro fuel
  induction fuel with
  | zero =>
    intro start h
    obtain ⟨j, h1, h2, _⟩ := h
    omega
  | succ fuel ih =>
    intro start h
    by_cases hd : d ∣ 10 ^ start
    · exact ⟨start, by simp [findExp, hd], hd⟩
    · obtain ⟨j, h1, h2, h3⟩ := h
      have hne : start ≠ j := fun he => hd (he ▸ h3)
      obtain ⟨k, hk1, hk2⟩ := ih (start + 1) ⟨j, by omega, by omega, h3⟩
      exact ⟨k, by simp [findExp, hd, hk1], hk2⟩

/-- Number of decimal digits needed after the point to render `q` exactly:
the first `k ≤ q.den` with `q.den ∣ 10 ^ k` (exists whenever `q.den`
divides a power of ten, i.e. for every value `pd.to_numeric` produces). -/
def decExp (q : ℚ) : ℕ :=
  (findExp q.den (q.den + 1) 0).getD 0

theorem decExp_spec (q : ℚ) (h : ∃ K, q.den ∣ 10 ^ K) :
    q.den ∣ 10 ^ decExp q := by
  obtain ⟨K, hK⟩ := h
  have hden : q.den ∣ 10 ^ q.den := dvd_ten_pow_self hK
  obtain ⟨k, hk1, hk2⟩ :=
    findExp_found q.den (q.den + 1) 0 ⟨q.den, by omega, by omega, hden⟩
  rw [decExp, hk1]
  exact hk2

/-- Plain-decimal character rendering of a rational number whose
denominator divides a power of ten — the format Python's `str` uses for a
float that is zero or of magnitude in [1e-4, 1e16) (`5 ↦ "5.0"`,
`-7/2 ↦ "-3.5"`, `21/20 ↦ "1.05"`); `renderFloatChars` below is the full
model including the scientific-notation regime. -/
def renderQChars (q : ℚ) : List Char :=
  let k := decExp q
  let m := q.num.natAbs * 10 ^ k / q.den
  let fd := natToDigits (m % 10 ^ k)
  (if q.num < 0 then ['-'] else []) ++
    natToDigits (m / 10 ^ k) ++ '.' :: (List.replicate (k - fd.length) '0' ++ fd)

/-- Whether Python's `str` renders the float `q` in scientific notation:
`x ≠ 0` and (`|x| ≥ 1e16` or `|x| < 1e-4`), encoded on the exact rational
as `10^16 * den ≤ |num|` or `10^4 * |num| < den`. -/
def sciCond (q : ℚ) : Bool :=
  (q.num != 0)
    && (decide (10 ^ 16 * q.den ≤ q.num.natAbs)
      || decide (10 ^ 4 * q.num.natAbs < q.den))

def dropTrailingZeros (l : List Char) : List Char :=
  (l.reverse.dropWhile (fun c => c = '0')).reverse

/-- Scientific-notation rendering of a nonzero decimal rational, the way
Python's `str` formats such floats: significant digits (a leading digit,
then `.` and the rest when there is more than one), `e`, an explicit
sign, and the exponent zero-padded to two digits
(`1/100000 ↦ "1e-05"`, `3/20000000 ↦ "1.5e-07"`, `2*10^16 ↦ "2e+16"`). -/
def sciChars (q : ℚ) : List Char :=
  let k := decExp q
  let m := q.num.natAbs * 10 ^ k / q.den
  let ds := natToDigits m
  let e : ℤ := (ds.length : ℤ) - 1 - k
  let ed := natToDigits e.natAbs
  (match dropTrailingZeros ds with
   | [] => ['0']
   | d :: rest => if rest.isEmpty then [d] else d :: '.' :: rest)
    ++ 'e' :: (if e < 0 then '-' else '+')
      :: (List.replicate (2 - ed.length) '0' ++ ed)

/-- Python `str` on a float value: scientific notation when the magnitude
is at least 1e16 or below 1e-4 (and nonzero), plain decimal otherwise. -/
def renderFloatChars (q : ℚ) : List Char :=
  if sciCond q then (if q.num < 0 then ['-'] else []) ++ sciChars q
  else renderQChars q

theorem parseUnsignedChars_digits_dot (as bs : List Char)
    (ha : ∀ c ∈ as, c.isDigit) (hb : ∀ c ∈ bs, c.isDigit) (hane : as ≠ []) :
    parseUnsignedChars (as ++ '.' :: bs)
      = some ((natVal as : ℚ) + (natVal bs : ℚ) / 10 ^ bs.length) := by
  have hdotas : '.' ∉ as := fun hc => digit_ne_dot (ha _ hc) rfl
  have hdotbs : '.' ∉ bs := fun hc => digit_ne_dot (hb _ hc) rfl
  have hsplit := splitFirstDot_append as bs hdotas
  have hred : parseUnsignedChars (as ++ '.' :: bs)
      = if '.' ∉ bs ∧ (∀ c ∈ as, c.isDigit) ∧ (∀ c ∈ bs, c.isDigit) ∧ as ++ bs ≠ []
        then some ((natVal as : ℚ) + (natVal bs : ℚ) / 10 ^ bs.length)
        else none := by
    unfold parseUnsignedChars
    rw [hsplit]
  rw [hred, if_pos ⟨hdotbs, ha, hb, by simp [hane]⟩]

theorem parse_render (q : ℚ) (h : ∃ K, q.den ∣ 10 ^ K) :
    parseDecChars (renderQChars q) = some q := by
  have hdvd : q.den ∣ 10 ^ decExp q := decExp_spec q h
  have hden0 : q.den ≠ 0 := q.den_nz
  have hdenQ : ((q.den : ℚ)) ≠ 0 := by exact_mod_cast hden0
  have h10 : ((10:ℚ) ^ decExp q) ≠ 0 := pow_ne_zero _ (by norm_num)
  set k := decExp q with hkdef
  set n := q.num.natAbs with hndef
  set m := n * 10 ^ k / q.den with hmdef
  have hdvd' : q.den ∣ n * 10 ^ k := Dvd.dvd.mul_left hdvd n
  have hm : m * q.den = n * 10 ^ k := Nat.div_mul_cancel hdvd'
  set ip := m / 10 ^ k with hipdef
  set fr := m % 10 ^ k with hfrdef
  have hfr : fr < 10 ^ k := Nat.mod_lt _ (pow_pos (by norm_num) k)
  set fd := natToDigits fr with hfddef
  set pad := List.replicate (k - fd.length) '0' ++ fd with hpaddef
  have hipd : ∀ c ∈ natToDigits ip, c.isDigit := natToDigits_all_digit ip
  have hpadd : ∀ c ∈ pad, c.isDigit := by
    intro c hc
    rcases List.mem_append.mp hc with h1 | h1
    · have hc0 : c = '0' := List.eq_of_mem_replicate h1
      subst hc0
      decide
    · exact natToDigits_all_digit fr c h1
  have hipne : natToDigits ip ≠ [] := natToDigits_ne_nil ip
  -- the value encoded by the fractional digits
  have hpadval : (natVal pad : ℚ) / 10 ^ pad.length = (fr : ℚ) / 10 ^ k := by
    by_cases hk0 : k = 0
    · have hfr0 : fr = 0 := by
        rw [hfrdef, hk0]
        simp [Nat.mod_one]
      have h0 : natToDigits 0 = ['0'] := by
        rw [natToDigits]
        rfl
      have hv : natVal ['0'] = 0 := by decide
      rw [hpaddef, hfddef, hfr0, hk0, h0]
      simp only [List.length_singleton, List.replicate, List.nil_append, hv]
      norm_num
    · have h1k : 1 ≤ k := by omega
      have hlen : fd.length ≤ k := natToDigits_length_le fr k h1k hfr
      have hplen : pad.length = k := by
        rw [hpaddef]
        simp only [List.length_append, List.length_replicate]
        omega
      have hval : natVal pad = fr := by
        rw [hpaddef, natVal_replicate_zero, hfddef, natVal_natToDigits]
      rw [hval, hplen]
  -- the unsigned value read back equals |q| = n / den
  have hN : ip * 10 ^ k + fr = m := by
    rw [Nat.mul_comm]
    exact Nat.div_add_mod m (10 ^ k)
  have hdecomp : (ip : ℚ) * 10 ^ k + (fr : ℚ) = (m : ℚ) := by
    exact_mod_cast hN
  have hmQ : (m : ℚ) * (q.den : ℚ) = (n : ℚ) * 10 ^ k := by
    exact_mod_cast hm
  have hu : (natVal (natToDigits ip) : ℚ) + (natVal pad : ℚ) / 10 ^ pad.length
      = (n : ℚ) / (q.den : ℚ) := by
    rw [hpadval, natVal_natToDigits]
    have hsplit : (ip : ℚ) + (fr : ℚ) / 10 ^ k = ((ip : ℚ) * 10 ^ k + fr) / 10 ^ k := by
      field_simp
    rw [hsplit, hdecomp, div_eq_div_iff h10 hdenQ]
    exact hmQ
  have hmain : parseUnsignedChars (natToDigits ip ++ '.' :: pad)
      = some ((n : ℚ) / (q.den : ℚ)) := by
    rw [parseUnsignedChars_digits_dot (natToDigits ip) pad hipd hpadd hipne, hu]
  have hrq : renderQChars q
      = (if q.num < 0 then ['-'] else []) ++ natToDigits ip ++ '.' :: pad := rfl
  by_cases hneg : q.num < 0
  · rw [hrq, if_pos hneg, List.singleton_append]
    show (if ('-' : Char) = '-'
        then (parseUnsignedChars (natToDigits ip ++ '.' :: pad)).map Neg.neg
        else parseUnsignedChars ('-' :: (natToDigits ip ++ '.' :: pad))) = some q
    rw [if_pos rfl, hmain]
    have hq : -((n : ℚ) / (q.den : ℚ)) = q := by
      have hnum : (q.num : ℚ) = -(n : ℚ) := by
        have hz : q.num = -(n : ℤ) := by
          rw [hndef]
          omega
        rw [hz]
        push_cast
        ring
      conv_rhs => rw [← Rat.num_div_den q]
      rw [hnum]
      ring
    simp [hq]
  · obtain ⟨c, t', hct⟩ := List.exists_cons_of_ne_nil hipne
    have hcdig : c.isDigit := hipd c (by rw [hct]; exact List.mem_cons_self _ _)
    have hcne : c ≠ '-' := digit_ne_dash hcdig
    rw [hrq, if_neg hneg, List.nil_append, hct, List.cons_append]
    show (if c = '-' then (parseUnsignedChars (t' ++ '.' :: pad)).map Neg.neg
        else parseUnsignedChars (c :: (t' ++ '.' :: pad))) = some q
    rw [if_neg hcne]
    have hback : c :: (t' ++ '.' :: pad) = natToDigits ip ++ '.' :: pad := by
      rw [hct]
      rfl
    rw [hback, hmain]
    have hq : (n : ℚ) / (q.den : ℚ) = q := by
      have hnum : (q.num : ℚ) = (n : ℚ) := by
        have hz : q.num = (n : ℤ) := by
          rw [hndef]
          omega
        rw [hz]
        push_cast
        ring
      conv_rhs => rw [← Rat.num_div_den q]
      rw [hnum]
    rw [hq]

/-- A cell value: missing (NaN / NaT / pd.NA), a number (a pandas float,
modelled as an exact rational), a text string, or a parsed datetime
(abstract timestamp token). -/
inductive Value where
  | null
  | num (q : ℚ)
  | str (s : String)
  | date (d : ℕ)
deriving DecidableEq, Repr

/-- `pd.isna` per cell. -/
def Value.isna : Value → Bool
  | .null => true
  | _ => false

/-- Rendering of a `Timestamp` cell by `str` (ISO-like shape
`"....-..-.. ..:..:.."`); what matters below is only that it keeps
interior dashes after stripping, so `pd.to_numeric` never re-parses it. -/
def dateStr (d : ℕ) : String := toString d ++ "-01-01 00:00:00"

/-- `astype("string")` per cell: missing values stay missing; numbers are
rendered the way `str` renders a float. -/
def Value.astypeString : Value → Option String
  | .null => none
  | .num q => some (String.mk (renderFloatChars q))
  | .str s => some s
  | .date d => some (dateStr d)

/-- Python-level `astype(str)` per cell: a missing value becomes the
literal placeholder pandas prints for it (`"<NA>"` under string dtype,
`"nan"` under float dtype; neither contains `@` and neither has length 10,
so no rule below depends on which one is used). -/
def Value.astypePyStr : Value → String
  | .null => "<NA>"
  | .num q => String.mk (renderFloatChars q)
  | .str s => s
  | .date d => dateStr d

/-- Cell multiplication: numeric when both operands are numeric, missing
otherwise (NaN propagation of pandas arithmetic). -/
def Value.mul : Value → Value → Value
  | .num a, .num b => .num (a * b)
  | _, _ => .null

/-- Cell subtraction with NaN propagation. -/
def Value.sub : Value → Value → Value
  | .num a, .num b => .num (a - b)
  | _, _ => .null

/-- Cell absolute value (`Series.abs`) with NaN propagation. -/
def Value.absV : Value → Value
  | .num a => .num (if a < 0 then -a else a)
  | _ => .null

/-- `v < q` with pandas comparison semantics: any comparison against a
missing value (NaN) is False. -/
def Value.ltNum : Value → ℚ → Bool
  | .num a, q => decide (a < q)
  | _, _ => false

/-- `v > q` with pandas comparison semantics: False on missing values. -/
def Value.gtNum : Value → ℚ → Bool
  | .num a, q => decide (q < a)
  | _, _ => false

/-- The pandas column dtypes that occur in this pipeline. -/
inductive Dtype where
  | object
  | string
  | float64
  | datetime64
deriving DecidableEq, Repr

/-- A row: association list from column name to cell value (one record of
`to_dict(orient="records")`). -/
abbrev Row := List (String × Value)

/-- A table: ordered column names with their dtypes, plus ordered rows. -/
structure DataFrame where
  cols : List (String × Dtype)
  rows : List Row
deriving DecidableEq, Repr

/-- `df.columns`. -/
def colNames (df : DataFrame) : List String := df.cols.map Prod.fst

/-- `df[c].dtype` (`none` when the column does not exist). -/
def dtypeOf (df : DataFrame) (c : String) : Option Dtype :=
  (df.cols.find? (fun p => p.1 == c)).map Prod.snd

/-- Cell lookup in a row; rows are kept aligned with `df.cols`, so the
`Value.null` default is never reached on well-formed frames. -/
def Row.get (r : Row) (c : String) : Value :=
  ((r.find? (fun p => p.1 == c)).map Prod.snd).getD Value.null

/-- Assignment of one cell of a row (insert when the key is new). -/
def Row.set (r : Row) (c : String) (v : Value) : Row :=
  if r.any (fun p => p.1 == c) then
    r.map (fun p => if p.1 == c then (c, v) else p)
  else r ++ [(c, v)]

/-- One column of the table, in row order (`df[c]` as a Series). -/
def colOf (df : DataFrame) (c : String) : List Value :=
  df.rows.map (fun r => Row.get r c)

/-- Pointwise column assignment `df[c] = f(df[c])`, recording the dtype
the assignment produces (a fresh column is appended when absent). -/
def setColPw (df : DataFrame) (c : String) (f : Value → Value) (dt : Dtype) : DataFrame :=
  ⟨if df.cols.any (fun p => p.1 == c) then
      df.cols.map (fun p => if p.1 == c then (c, dt) else p)
    else df.cols ++ [(c, dt)],
    df.rows.map (fun r => Row.set r c (f (Row.get r c)))⟩

theorem Row.get_set_self (r : Row) (c : String) (v : Value) :
    Row.get (Row.set r c v) c = v := by
  unfold Row.set
  split
  · next hany =>
    induction r with
    | nil => simp at hany
    | cons p t ih =>
      simp only [List.any_cons, Bool.or_eq_true] at hany
      simp only [List.map_cons]
      by_cases hp : (p.1 == c) = true
      · rw [if_pos hp]
        unfold Row.get
        rw [List.find?_cons_of_pos _ (by simp)]
        rfl
      · rw [if_neg hp]
        unfold Row.get
        rw [List.find?_cons_of_neg _ (by simpa using hp)]
        exact ih (hany.resolve_left hp)
  · next hany =>
    have hnone : r.find? (fun p => p.1 == c) = none := by
      rw [List.find?_eq_none]
      intro x hx hpx
      exact hany (List.any_eq_true.mpr ⟨x, hx, hpx⟩)
    unfold Row.get
    rw [List.find?_append, hnone]
    simp [List.find?]

theorem find?_map_update_other (t : List (String × Value)) (c c' : String)
    (v : Value) (h : c' ≠ c) :
    (t.map (fun p => if p.1 == c then (c, v) else p)).find? (fun p => p.1 == c')
      = t.find? (fun p => p.1 == c') := by
  induction t with
  | nil => rfl
  | cons p t ih =>
    rw [List.map_cons]
    by_cases hp : (p.1 == c) = true
    · have hc : p.1 = c := eq_of_beq hp
      have hne : ((c, v).1 == c') = false :=
        beq_eq_false_iff_ne.mpr (fun he => h he.symm)
      have hne' : (p.1 == c') = false :=
        beq_eq_false_iff_ne.mpr (by rw [hc]; exact fun he => h he.symm)
      rw [if_pos hp, List.find?_cons_of_neg _ (by simp [hne]),
        List.find?_cons_of_neg _ (by simp [hne'])]
      exact ih
    · rw [if_neg hp]
      by_cases hp' : (p.1 == c') = true
      · rw [List.find?_cons_of_pos (p := fun q => q.1 == c') (a := p) _ hp',
          List.find?_cons_of_pos (p := fun q => q.1 == c') (a := p) _ hp']
      · rw [List.find?_cons_of_neg _ (by simpa using hp'),
          List.find?_cons_of_neg _ (by simpa using hp')]
        exact ih

theorem Row.get_set_other (r : Row) (c c' : String) (v : Value) (h : c' ≠ c) :
    Row.get (Row.set r c v) c' = Row.get r c' := by
  unfold Row.set
  split
  · unfold Row.get
    rw [find?_map_update_other r c c' v h]
  · unfold Row.get
    rw [List.find?_append]
    have hlast : List.find? (fun p => p.1 == c') [(c, v)] = none := by
      rw [List.find?_eq_none]
      intro x hx hpx
      simp at hx
      subst hx
      simp at hpx
      exact h hpx.symm
    rw [hlast]
    simp

theorem length_rows_setColPw (df : DataFrame) (c : String) (f : Value → Value)
    (dt : Dtype) : (setColPw df c f dt).rows.length = df.rows.length := by
  simp [setColPw]

theorem colOf_setColPw_self (df : DataFrame) (c : String) (f : Value → Value)
    (dt : Dtype) : colOf (setColPw df c f dt) c = (colOf df c).map f := by
  simp only [colOf, setColPw, List.map_map]
  apply List.map_congr_left
  intro r _
  exact Row.get_set_self r c (f (Row.get r c))

theorem colOf_setColPw_other (df : DataFrame) (c c' : String) (f : Value → Value)
    (dt : Dtype) (h : c' ≠ c) : colOf (setColPw df c f dt) c' = colOf df c' := by
  simp only [colOf, setColPw, List.map_map]
  apply List.map_congr_left
  intro r _
  exact Row.get_set_other r c c' (f (Row.get r c)) h

/-- Characters kept by `coerce_numeric`'s first cleanup step, which removes
everything matching `[^\d\-\.,]` (digits, minus, dot, comma survive). -/
def keepNumChars (l : List Char) : List Char :=
  l.filter (fun c => c.isDigit || c = '-' || c = '.' || c = ',')

/-- Replace every comma by a dot (`str.replace(",", ".", regex=False)`). -/
def commaToDot (l : List Char) : List Char :=
  l.map (fun c => if c = ',' then '.' else c)

/-- One cell of `utils.coerce_numeric`: `astype("string")`, drop every
character that is not a digit, minus, dot or comma, replace comma by dot,
then `pd.to_numeric(errors="coerce")` (unparseable cells become null). -/
def coerceCell (v : Value) : Value :=
  match v.astypeString with
  | none => Value.null
  | some s =>
    match parseDecChars (commaToDot (keepNumChars s.toList)) with
    | some q => Value.num q
    | none => Value.null

/-- The column view of `coerceCell`. -/
def coerceCol (l : List Value) : List Value := l.map coerceCell

/-- `utils.coerce_numeric(df, cols)`: coerce each listed column that
exists (absent columns are skipped by `continue`); the assignment of the
`pd.to_numeric` result makes the column float dtype. -/
def coerce_numeric (df : DataFrame) (cols : List String) : DataFrame :=
  cols.foldl
    (fun d c =>
      if d.cols.any (fun p => p.1 == c) then setColPw d c coerceCell Dtype.float64
      else d)
    df

/-- Fraction of non-null entries, `Series.notna().mean()` (0 on an empty
column, where pandas gives NaN; both interpretations then coincide on the
empty column so the difference is unobservable in the output frame). -/
def rateSome (l : List (Option ℕ)) : ℚ := (l.countP Option.isSome : ℚ) / l.length

/-- Parsed timestamp to cell (`NaT` for failures). -/
def optToDate : Option ℕ → Value
  | some d => Value.date d
  | none => Value.null

/-- `utils.parse_dates_flex(df, col)`.  The two candidate interpretations
`pd.to_datetime(s, errors="coerce", dayfirst=True/False)` are library
behaviour outside this repository and are taken as parameters `pDay`,
`pMonth` (each maps one cell's text to a timestamp or `none`).  The
function computes both success rates and applies the winning
interpretation to the whole column; `>=` makes ties go to day-first. -/
def parse_dates_flex (pDay pMonth : String → Option ℕ) (df : DataFrame)
    (col : String) : DataFrame :=
  if df.cols.any (fun p => p.1 == col) then
    let s := (colOf df col).map Value.astypeString
    let dayRate := rateSome (s.map (fun o => o.bind pDay))
    let monthRate := rateSome (s.map (fun o => o.bind pMonth))
    let chosen := if dayRate ≥ monthRate then pDay else pMonth
    setColPw df col (fun v => optToDate (v.astypeString.bind chosen)) Dtype.datetime64
  else df

/-- `drop_duplicates(keep="first")` keyed by `key`, generalised over the
set of key values already seen. -/
def dropDupFirst (key : Row → List Value) (seen : List (List Value)) :
    List Row → List Row
  | [] => []
  | r :: t =>
    if key r ∈ seen then dropDupFirst key seen t
    else r :: dropDupFirst key (key r :: seen) t

/-- `utils.deduplicate(df, subset)`: keep the first occurrence (in
original row order) of each value combination of the subset columns. -/
def deduplicate (df : DataFrame) (subset : List String) : DataFrame :=
  ⟨df.cols, dropDupFirst (fun r => subset.map (fun c => Row.get r c)) [] df.rows⟩

/-- Lines 80-82 of `clean_validate.clean_dataset`: deduplicate on the
primary key when that column is present, otherwise leave the frame
unchanged. -/
def dedup_step (df : DataFrame) (pk : String) : DataFrame :=
  if pk ∈ colNames df then deduplicate df [pk] else df

/-- Collapse every whitespace run to a single space
(`str.replace(r"\s+", " ", regex=True)`). -/
def collapseWs : List Char → List Char
  | [] => []
  | c :: t =>
    if isSpaceChar c then ' ' :: collapseWs (t.dropWhile isSpaceChar)
    else c :: collapseWs t
  termination_by l => l.length
  decreasing_by
  · have := (List.dropWhile_sublist (l := t) (p := isSpaceChar)).length_le
    simp only [List.length_cons]
    omega
  · simp only [List.length_cons]
    omega

/-- Trim leading and trailing whitespace (`str.strip()`). -/
def trimWs (l : List Char) : List Char :=
  ((l.dropWhile isSpaceChar).reverse.dropWhile isSpaceChar).reverse

/-- Python `str.title()` after lowercasing: uppercase each character that
starts an alphabetic run, lowercase the rest (non-ASCII letters pass
through unchanged, preserving accents). -/
def titleChars : Bool → List Char → List Char
  | _, [] => []
  | prevAlpha, c :: t =>
    (if c.isAlpha then (if prevAlpha then c.toLower else c.toUpper) else c)
      :: titleChars c.isAlpha t

/-- One cell of `utils.normalize_strings`: `astype("string")`, strip,
collapse inner whitespace; then lowercase for categorical columns, or
lowercase-then-titlecase for proper-noun columns. -/
def normCell (low title_ : Bool) (v : Value) : Value :=
  match v.astypeString with
  | none => Value.null
  | some s =>
    let s1 := String.mk (collapseWs (trimWs s.toList))
    let s2 := if low then s1.toLower else s1
    let s3 := if title_ then String.mk (titleChars false s2.toLower.toList) else s2
    Value.str s3

def lowerCols : List String := ["channel", "source", "status"]

def titleCols : List String := ["city", "region", "product"]

/-- `utils.normalize_strings(df, cols)` (absent columns are skipped). -/
def normalize_strings (df : DataFrame) (cols : List String) : DataFrame :=
  cols.foldl
    (fun d c =>
      if d.cols.any (fun p => p.1 == c) then
        setColPw d c (normCell (lowerCols.contains c) (titleCols.contains c))
          Dtype.string
      else d)
    df

/-- `str.replace(".", "", regex=False)`: remove every dot. -/
def removeDots (s : String) : String := String.mk (s.toList.filter (fun c => c ≠ '.'))

/-- `str.replace(",", ".", regex=False)` on a string. -/
def commaToDotStr (s : String) : String := String.mk (commaToDot s.toList)

/-- Lines 56-63 of `clean_validate.clean_dataset` (sales branch): when the
revenue column is still object dtype after generic numeric coercion, treat
dots as thousands separators and commas as decimal separators —
`astype(str)`, remove dots, comma to dot — then coerce numeric again.
Precondition of the source: the revenue column exists (a missing column
raises `KeyError` there). -/
def sales_revenue_fix (df : DataFrame) : DataFrame :=
  if dtypeOf df "revenue" = some Dtype.object then
    coerce_numeric
      (setColPw df "revenue"
        (fun v => Value.str (commaToDotStr (removeDots (Value.astypePyStr v))))
        Dtype.object)
      ["revenue"]
  else df

def salesNumCols : List String :=
  ["order_id", "customer_id", "qty", "unit_price", "revenue"]

/-- Generic-fallback test of `clean_dataset`:
`c.lower().endswith(("date", "_at", "timestamp"))`. -/
def dateLikeName (c : String) : Bool :=
  let l := (c.toLower).toList
  List.isSuffixOf "date".toList l || List.isSuffixOf "_at".toList l
    || List.isSuffixOf "timestamp".toList l

/-- `clean_validate.clean_dataset(df, dataset)`: dataset-specific cleaning
(string normalization, flexible date parsing, numeric coercion, extra
per-dataset steps), then deduplication on the primary key if present.
`pDay`/`pMonth` are the `pd.to_datetime` interpretations passed through to
`parse_dates_flex`. -/
def clean_dataset (pDay pMonth : String → Option ℕ) (df : DataFrame)
    (dataset : String) : DataFrame :=
  let df1 :=
    if dataset = "sales" then
      let a := normalize_strings df ["region", "channel", "product", "notes"]
      let b := parse_dates_flex pDay pMonth a "order_date"
      let c := coerce_numeric b salesNumCols
      sales_revenue_fix c
    else if dataset = "leads" then
      let a := normalize_strings df ["source", "status", "city", "notes", "email"]
      let b := parse_dates_flex pDay pMonth a "created_at"
      let c := coerce_numeric b ["lead_id", "score"]
      setColPw c "phone"
        (fun v => Value.str (String.mk ((Value.astypePyStr v).toList.filter Char.isDigit)))
        Dtype.object
    else
      let objCols := (df.cols.filter (fun p => p.2 == Dtype.object)).map Prod.fst
      let a := normalize_strings df objCols
      (colNames a).foldl
        (fun d c => if dateLikeName c then parse_dates_flex pDay pMonth d c else d) a
  if dataset = "sales" then dedup_step df1 "order_id"
  else if dataset = "leads" then dedup_step df1 "lead_id"
  else df1

/-- The value a rule's predicate returns to `Rule.run` when its
evaluation returns at all: a boolean Series (True = the row violates the
rule), or some object without a `.sum` attribute (the defensive
`hasattr(fail_mask, "sum")` branch).  A predicate whose evaluation
instead raises is modelled by `RuleExc` below: `rules.py` has no
try/except, so that exception propagates out of `run`. -/
inductive CheckResult where
  | mask (m : List Bool)
  | nonMask
deriving DecidableEq, Repr

/-- The dictionary `Rule.run` returns. -/
structure RuleResult where
  rule_id : String
  description : String
  severity : String
  status : String
  failed_count : ℕ
  failed_sample : List Row
deriving DecidableEq, Repr

/-- A validation rule (`rules.Rule`). -/
structure Rule where
  rule_id : String
  description : String
  severity : String
  check : DataFrame → CheckResult

/-- `df.loc[mask]`: the rows where the mask is True, in original order. -/
def maskRows (rows : List Row) (m : List Bool) : List Row :=
  ((rows.zip m).filter (fun p => p.2)).map Prod.fst

/-- `rules.Rule.run(df)`: count the True entries of the mask (0 when the
predicate result has no `.sum`), PASS iff nothing failed, and sample the
first 5 failing rows as complete records. -/
def Rule.run (rule : Rule) (df : DataFrame) : RuleResult :=
  match rule.check df with
  | .mask m =>
    let failed_count := m.count true
    { rule_id := rule.rule_id
      description := rule.description
      severity := rule.severity
      status := if failed_count = 0 then "PASS" else "FAIL"
      failed_count := failed_count
      failed_sample := if failed_count = 0 then [] else (maskRows df.rows m).take 5 }
  | .nonMask =>
    { rule_id := rule.rule_id
      description := rule.description
      severity := rule.severity
      status := "PASS"
      failed_count := 0
      failed_sample := [] }

/-- A rule whose predicate evaluation may itself raise (e.g. a
`TypeError` from unexpected operand types): `rules.py` line 15 runs
`fail_mask = self.check(df)` with no try/except around it, so the
evaluation either returns a `CheckResult` or raises.  `Rule` above is the
restriction to predicates whose evaluation returns — every shipped rule
is of that form on well-formed frames. -/
structure RuleExc where
  rule_id : String
  description : String
  severity : String
  check : DataFrame → Except String CheckResult

/-- The `Rule` that continues `run` once the predicate evaluation has
returned the value `cr`. -/
def RuleExc.withResult (rule : RuleExc) (cr : CheckResult) : Rule :=
  { rule_id := rule.rule_id
    description := rule.description
    severity := rule.severity
    check := fun _ => cr }

/-- `rules.Rule.run` including the predicate's error path: an exception
raised while evaluating the predicate is not caught — it propagates out
of `run` and aborts the caller's run — while a returned value is
processed exactly as in `Rule.run` (lines 16-26). -/
def RuleExc.run (rule : RuleExc) (df : DataFrame) : Except String RuleResult :=
  match rule.check df with
  | .error e => .error e
  | .ok cr => .ok (Rule.run (RuleExc.withResult rule cr) df)

/-- `Series.duplicated(keep=False)` generalised over the values occurring
before the current suffix: an entry is marked when its value was already
seen or occurs again later. -/
def duplicatedAux (seen : List Value) : List Value → List Bool
  | [] => []
  | v :: t => (decide (v ∈ seen) || decide (v ∈ t)) :: duplicatedAux (v :: seen) t

/-- `Series.duplicated(keep=False)`: mark every entry whose value occurs
more than once in the column, the first occurrence included. -/
def duplicatedKeepFalse (l : List Value) : List Bool := duplicatedAux [] l

/-- Split a character list on a separator (`≥ 1` chunks, separators
dropped). -/
def splitOnChar (sep : Char) : List Char → List (List Char)
  | [] => [[]]
  | c :: t =>
    let r := splitOnChar sep t
    if c = sep then [] :: r
    else
      match r with
      | [] => [[c]]
      | h :: t2 => (c :: h) :: t2

/-- One chunk of the email pattern: nonempty, no `@`, no whitespace
(the character class `[^@\s]+`). -/
def emailAtomOk (l : List Char) : Bool :=
  !l.isEmpty && l.all (fun c => !(c = '@' || isSpaceChar c))

/-- `re.match` of `^[^@\s]+@[^@\s]+\.[^@\s]+$` on a whole string: exactly
one `@`; both sides nonempty without `@`/whitespace; and the domain side
has a dot that is neither its first nor its last character, so it splits
as `A.B` with `A`, `B` nonempty. -/
def emailMatch (s : String) : Bool :=
  match splitOnChar '@' s.toList with
  | [lpart, dpart] =>
    emailAtomOk lpart && emailAtomOk dpart &&
      (match dpart with
       | [] => false
       | _ :: t => t.dropLast.contains '.')
  | _ => false

/-- Pointwise combination of three equally long Series. -/
def zipWith3 (f : Value → Value → Value → Bool) :
    List Value → List Value → List Value → List Bool
  | a :: as, b :: bs, c :: cs => f a b c :: zipWith3 f as bs cs
  | _, _, _ => []

/-- One row of the S004 predicate
`d["revenue"].isna() | ((d["qty"] * d["unit_price"] - d["revenue"]).abs() > 1)`. -/
def s004cell (qv pv rv : Value) : Bool :=
  rv.isna || (Value.absV (Value.sub (Value.mul qv pv) rv)).gtNum 1

def S001_qty_positive : Rule :=
  { rule_id := "S001_qty_positive"
    description := "qty must be >= 1"
    severity := "error"
    check := fun d => .mask ((colOf d "qty").map (fun v => v.isna || v.ltNum 1)) }

def S002_unit_price_reasonable : Rule :=
  { rule_id := "S002_unit_price_reasonable"
    description := "unit_price must be between 1,000 and 200,000"
    severity := "error"
    check := fun d => .mask ((colOf d "unit_price").map
      (fun v => v.isna || v.ltNum 1000 || v.gtNum 200000)) }

def S003_order_date_present : Rule :=
  { rule_id := "S003_order_date_present"
    description := "order_date must be a valid parsed date"
    severity := "error"
    check := fun d => .mask ((colOf d "order_date").map Value.isna) }

def S004_revenue_consistency : Rule :=
  { rule_id := "S004_revenue_consistency"
    description := "revenue should equal qty * unit_price (tolerance 1 peso)"
    severity := "warn"
    check := fun d => .mask
      (zipWith3 s004cell (colOf d "qty") (colOf d "unit_price") (colOf d "revenue")) }

def S005_region_not_null : Rule :=
  { rule_id := "S005_region_not_null"
    description := "region must not be null"
    severity := "warn"
    check := fun d => .mask ((colOf d "region").map
      (fun v => v.isna || (String.mk (trimWs (Value.astypePyStr v).toList) == ""))) }

def S006_order_id_unique : Rule :=
  { rule_id := "S006_order_id_unique"
    description := "order_id must be unique after cleaning"
    severity := "error"
    check := fun d => .mask (duplicatedKeepFalse (colOf d "order_id")) }

def L001_email_format : Rule :=
  { rule_id := "L001_email_format"
    description := "email must be valid format"
    severity := "error"
    check := fun d => .mask ((colOf d "email").map
      (fun v => !(emailMatch (Value.astypePyStr v)))) }

def L002_phone_length : Rule :=
  { rule_id := "L002_phone_length"
    description := "phone must have 10 digits (Colombia mobile standard)"
    severity := "warn"
    check := fun d => .mask ((colOf d "phone").map
      (fun v => decide ((Value.astypePyStr v).length ≠ 10))) }

def L003_created_at_valid : Rule :=
  { rule_id := "L003_created_at_valid"
    description := "created_at must be a valid parsed date"
    severity := "error"
    check := fun d => .mask ((colOf d "created_at").map Value.isna) }

def L004_score_range : Rule :=
  { rule_id := "L004_score_range"
    description := "score must be between 0 and 100"
    severity := "warn"
    check := fun d => .mask ((colOf d "score").map
      (fun v => v.isna || v.ltNum 0 || v.gtNum 100)) }

def L005_lead_id_unique : Rule :=
  { rule_id := "L005_lead_id_unique"
    description := "lead_id must be unique after cleaning"
    severity := "error"
    check := fun d => .mask (duplicatedKeepFalse (colOf d "lead_id")) }

/-- `rules.get_rules_for_dataset`: the fixed ordered rule set per dataset
kind; an unknown kind raises `ValueError` in the source (`none` here). -/
def get_rules_for_dataset (dataset : String) : Option (List Rule) :=
  if dataset = "sales" then
    some [S001_qty_positive, S002_unit_price_reasonable, S003_order_date_present,
      S004_revenue_consistency, S005_region_not_null, S006_order_id_unique]
  else if dataset = "leads" then
    some [L001_email_format, L002_phone_length, L003_created_at_valid,
      L004_score_range, L005_lead_id_unique]
  else none

theorem any_beq_iff_mem (df : DataFrame) (c : String) :
    (df.cols.any (fun p => p.1 == c)) = true ↔ c ∈ colNames df := by
  rw [List.any_eq_true, colNames]
  constructor
  · rintro ⟨p, hp, hbeq⟩
    exact List.mem_map.mpr ⟨p, hp, eq_of_beq hbeq⟩
  · intro h
    obtain ⟨p, hp, he⟩ := List.mem_map.mp h
    exact ⟨p, hp, beq_iff_eq.mpr he⟩

theorem colOf_length (df : DataFrame) (c : String) :
    (colOf df c).length = df.rows.length := by
  simp [colOf]

theorem find?_map_update_self {β : Type} (t : List (String × β)) (c : String)
    (x : β) (hany : (t.any (fun p => p.1 == c)) = true) :
    (t.map (fun p => if p.1 == c then (c, x) else p)).find? (fun p => p.1 == c)
      = some (c, x) := by
  induction t with
  | nil => simp at hany
  | cons p t ih =>
    simp only [List.any_cons, Bool.or_eq_true] at hany
    rw [List.map_cons]
    by_cases hp : (p.1 == c) = true
    · rw [if_pos hp, List.find?_cons_of_pos _ (by simp)]
    · rw [if_neg hp, List.find?_cons_of_neg _ (by simpa using hp)]
      exact ih (hany.resolve_left hp)

theorem dtypeOf_setColPw_self (df : DataFrame) (c : String) (f : Value → Value)
    (dt : Dtype) : dtypeOf (setColPw df c f dt) c = some dt := by
  unfold setColPw dtypeOf
  split
  · next hany =>
    rw [find?_map_update_self df.cols c dt hany]
    rfl
  · next hany =>
    have hnone : df.cols.find? (fun p => p.1 == c) = none := by
      rw [List.find?_eq_none]
      intro x hx hpx
      exact hany (List.any_eq_true.mpr ⟨x, hx, hpx⟩)
    rw [List.find?_append, hnone]
    simp [List.find?]

theorem find?_map_update_other_d (t : List (String × Dtype)) (c c' : String)
    (x : Dtype) (h : c' ≠ c) :
    (t.map (fun p => if p.1 == c then (c, x) else p)).find? (fun p => p.1 == c')
      = t.find? (fun p => p.1 == c') := by
  induction t with
  | nil => rfl
  | cons p t ih =>
    rw [List.map_cons]
    by_cases hp : (p.1 == c) = true
    · have hc : p.1 = c := eq_of_beq hp
      have hne : ((c, x).1 == c') = false :=
        beq_eq_false_iff_ne.mpr (fun he => h he.symm)
      have hne' : (p.1 == c') = false :=
        beq_eq_false_iff_ne.mpr (by rw [hc]; exact fun he => h he.symm)
      rw [if_pos hp, List.find?_cons_of_neg _ (by simp [hne]),
        List.find?_cons_of_neg _ (by simp [hne'])]
      exact ih
    · rw [if_neg hp]
      by_cases hp' : (p.1 == c') = true
      · rw [List.find?_cons_of_pos (p := fun q => q.1 == c') (a := p) _ hp',
          List.find?_cons_of_pos (p := fun q => q.1 == c') (a := p) _ hp']
      · rw [List.find?_cons_of_neg _ (by simpa using hp'),
          List.find?_cons_of_neg _ (by simpa using hp')]
        exact ih

theorem dtypeOf_setColPw_other (df : DataFrame) (c c' : String)
    (f : Value → Value) (dt : Dtype) (h : c' ≠ c) :
    dtypeOf (setColPw df c f dt) c' = dtypeOf df c' := by
  unfold setColPw dtypeOf
  split
  · rw [find?_map_update_other_d df.cols c c' dt h]
  · rw [List.find?_append]
    have hlast : List.find? (fun p => p.1 == c') [(c, dt)] = none := by
      rw [List.find?_eq_none]
      intro x hx hpx
      simp at hx
      subst hx
      simp at hpx
      exact h hpx.symm
    rw [hlast]
    simp

theorem mem_colNames_setColPw (df : DataFrame) (c c' : String)
    (f : Value → Value) (dt : Dtype) (h : c' ∈ colNames df) :
    c' ∈ colNames (setColPw df c f dt) := by
  unfold setColPw colNames
  split
  · obtain ⟨p, hp, he⟩ := List.mem_map.mp h
    rw [List.map_map]
    apply List.mem_map.mpr
    refine ⟨p, hp, ?_⟩
    by_cases hpc : (p.1 == c) = true
    · simp only [Function.comp, if_pos hpc]
      rw [← he]
      exact (eq_of_beq hpc).symm
    · simp only [Function.comp, if_neg hpc]
      exact he
  · simp only [List.map_append]
    exact List.mem_append_left _ h

theorem maskRows_nil_of_count_zero (rows : List Row) (m : List Bool)
    (h : m.count true = 0) : maskRows rows m = [] := by
  unfold maskRows
  have hall : ∀ b ∈ m, b = false := by
    intro b hb
    cases b
    · rfl
    · exact absurd hb (List.count_eq_zero.mp h)
  rw [List.filter_eq_nil_iff.mpr, List.map_nil]
  intro p hp
  have := (List.of_mem_zip hp).2
  simp [hall p.2 this]

theorem mem_rows_of_mem_maskRows (rows : List Row) (m : List Bool) (r : Row)
    (h : r ∈ maskRows rows m) : r ∈ rows := by
  unfold maskRows at h
  obtain ⟨p, hp, he⟩ := List.mem_map.mp h
  have := (List.of_mem_zip (List.mem_of_mem_filter hp)).1
  rwa [he] at this

/-- C3: for every rule whose predicate yields a boolean mask on a table,
`Rule.run` reports `failed_count` equal to the number of True entries of
the mask, status `PASS` exactly when `failed_count = 0` (else `FAIL`), and
`failed_sample` equal to the first at most 5 rows (in original row order)
where the mask is True, each a complete row of the table. -/
theorem rule_run_mask_spec (rule : Rule) (df : DataFrame) (m : List Bool)
    (hc : rule.check df = .mask m) :
    (rule.run df).failed_count = m.count true ∧
    (rule.run df).status = (if m.count true = 0 then "PASS" else "FAIL") ∧
    ((rule.run df).status = "PASS" ↔ (rule.run df).failed_count = 0) ∧
    (rule.run df).failed_sample = (maskRows df.rows m).take 5 ∧
    (∀ r ∈ (rule.run df).failed_sample, r ∈ df.rows) := by
  have hrun : rule.run df =
      { rule_id := rule.rule_id
        description := rule.description
        severity := rule.severity
        status := if m.count true = 0 then "PASS" else "FAIL"
        failed_count := m.count true
        failed_sample := if m.count true = 0 then []
          else (maskRows df.rows m).take 5 } := by
    unfold Rule.run
    rw [hc]
  rw [hrun]
  dsimp only
  refine ⟨rfl, rfl, ?_, ?_, ?_⟩
  · by_cases h0 : m.count true = 0
    · simp [h0]
    · simp only [if_neg h0]
      constructor
      · intro hps
        exact absurd hps (by decide)
      · intro hc0
        exact absurd hc0 h0
  · by_cases h0 : m.count true = 0
    · simp only [if_pos h0]
      rw [maskRows_nil_of_count_zero df.rows m h0]
      rfl
    · simp only [if_neg h0]
  · intro r hr
    by_cases h0 : m.count true = 0
    · simp only [if_pos h0] at hr
      simp at hr
    · simp only [if_neg h0] at hr
      exact mem_rows_of_mem_maskRows df.rows m r (List.take_subset _ _ hr)

def dfC3 : DataFrame :=
  ⟨[("order_date", Dtype.datetime64)],
    [[("order_date", Value.date 1)], [("order_date", Value.null)]]⟩

/-- Witness for C3: the S003 rule on a concrete two-row frame whose mask
is `[false, true]`. -/
theorem rule_run_mask_spec_witness :
    (S003_order_date_present.run dfC3).failed_count = [false, true].count true ∧
    (S003_order_date_present.run dfC3).status
      = (if [false, true].count true = 0 then "PASS" else "FAIL") ∧
    ((S003_order_date_present.run dfC3).status = "PASS"
      ↔ (S003_order_date_present.run dfC3).failed_count = 0) ∧
    (S003_order_date_present.run dfC3).failed_sample
      = (maskRows dfC3.rows [false, true]).take 5 ∧
    (∀ r ∈ (S003_order_date_present.run dfC3).failed_sample, r ∈ dfC3.rows) :=
  rule_run_mask_spec S003_order_date_present dfC3 [false, true] (by decide)

/-- A rule whose predicate hands back a non-maskable object. -/
def ruleBrokenPredicate : Rule :=
  { rule_id := "X001_broken"
    description := "predicate result has no sum attribute"
    severity := "warn"
    check := fun _ => .nonMask }

/-- The zero-failure PASS result the claim asserts for a raising
predicate. -/
def raisingPassResult : RuleResult :=
  { rule_id := "X002_raising"
    description := "predicate raises on unexpected operand types"
    severity := "warn"
    status := "PASS"
    failed_count := 0
    failed_sample := [] }

/-- A rule whose predicate evaluation raises. -/
def ruleRaisingPredicate : RuleExc :=
  { rule_id := "X002_raising"
    description := "predicate raises on unexpected operand types"
    severity := "warn"
    check := fun _ => .error "TypeError: unsupported operand types" }

/-- C4 counterexample: a rule whose predicate cannot be evaluated because
it raises (the claim's 'cannot be evaluated due to unexpected types')
does not degrade to a zero-failure PASS result — `rules.py` has no
try/except, so `run` yields the propagated exception and the whole run
aborts. -/
theorem rule_run_raising_aborts :
    ruleRaisingPredicate.run dfC3
        = Except.error "TypeError: unsupported operand types" ∧
    ruleRaisingPredicate.run dfC3 ≠ Except.ok raisingPassResult := by
  have he : ruleRaisingPredicate.run dfC3
      = Except.error "TypeError: unsupported operand types" := rfl
  refine ⟨he, ?_⟩
  rw [he]
  exact fun h => Except.noConfusion h

/-- C4 amended: when a rule's predicate returns a value that is not a
boolean mask (no `.sum` attribute), rule execution degrades to zero
failures for that rule — status `PASS`, `failed_count = 0`, empty sample
— rather than aborting; any returned predicate value produces a result;
but a predicate that cannot be evaluated at all (raises, e.g. on
unexpected types) is not caught: the exception propagates out of `run`
and aborts the whole run. -/
theorem rule_run_fallback_spec :
    (∀ (rule : Rule) (df : DataFrame), rule.check df = .nonMask →
      (rule.run df).status = "PASS" ∧ (rule.run df).failed_count = 0 ∧
      (rule.run df).failed_sample = []) ∧
    (∀ (rule : RuleExc) (df : DataFrame) (cr : CheckResult),
      rule.check df = .ok cr → ∃ r : RuleResult, rule.run df = .ok r) ∧
    (∀ (rule : RuleExc) (df : DataFrame) (e : String),
      rule.check df = .error e → rule.run df = .error e) := by
  refine ⟨?_, ?_, ?_⟩
  · intro rule df hc
    have hrun : rule.run df =
        { rule_id := rule.rule_id
          description := rule.description
          severity := rule.severity
          status := "PASS"
          failed_count := 0
          failed_sample := [] } := by
      unfold Rule.run
      rw [hc]
    rw [hrun]
    exact ⟨rfl, rfl, rfl⟩
  · intro rule df cr hc
    refine ⟨Rule.run (RuleExc.withResult rule cr) df, ?_⟩
    unfold RuleExc.run
    rw [hc]
  · intro rule df e hc
    unfold RuleExc.run
    rw [hc]

/-- Witness for the amended C4 at concrete rules and a concrete frame:
the non-maskable fallback and the propagated exception. -/
theorem rule_run_fallback_spec_witness :
    ((ruleBrokenPredicate.run dfC3).status = "PASS" ∧
      (ruleBrokenPredicate.run dfC3).failed_count = 0 ∧
      (ruleBrokenPredicate.run dfC3).failed_sample = []) ∧
    ruleRaisingPredicate.run dfC3
      = Except.error "TypeError: unsupported operand types" :=
  ⟨rule_run_fallback_spec.1 ruleBrokenPredicate dfC3 rfl,
    rule_run_fallback_spec.2.2 ruleRaisingPredicate dfC3 _ rfl⟩

theorem duplicatedAux_length (seen l : List Value) :
    (duplicatedAux seen l).length = l.length := by
  induction l generalizing seen with
  | nil => rfl
  | cons v t ih => simp [duplicatedAux, ih]

theorem duplicatedAux_getD (l : List Value) :
    ∀ (seen : List Value) (i : ℕ), i < l.length →
      (duplicatedAux seen l).getD i false
        = decide (l.getD i Value.null ∈ seen
            ∨ 1 < l.count (l.getD i Value.null)) := by
  induction l with
  | nil =>
    intro seen i h
    simp at h
  | cons v t ih =>
    intro seen i h
    cases i with
    | zero =>
      simp only [duplicatedAux, List.getD_cons_zero]
      rw [Bool.decide_or]
      have hiff : (v ∈ t) ↔ 1 < (v :: t).count v := by
        rw [List.count_cons_self]
        constructor
        · intro hm
          have := List.count_pos_iff.mpr hm
          omega
        · intro h1
          exact List.count_pos_iff.mp (by omega)
      rw [decide_eq_decide.mpr hiff]
    | succ i =>
      simp only [duplicatedAux, List.getD_cons_succ]
      rw [ih (v :: seen) i (by simpa using h)]
      apply decide_eq_decide.mpr
      have hi : i < t.length := by simpa using h
      have hmem : t.getD i Value.null ∈ t := by
        rw [List.getD_eq_getElem t Value.null hi]
        exact List.getElem_mem hi
      by_cases hv : t.getD i Value.null = v
      · constructor
        · intro _
          right
          rw [hv, List.count_cons_self]
          have := List.count_pos_iff.mpr (hv ▸ hmem)
          omega
        · intro _
          left
          rw [hv]
          exact List.mem_cons_self v seen
      · have hcc : (v :: t).count (t.getD i Value.null)
            = t.count (t.getD i Value.null) := by
          rw [List.count_cons]
          have hv2 : (v == t.getD i Value.null) = false :=
            beq_eq_false_iff_ne.mpr (fun he => hv he.symm)
          rw [hv2]
          simp
        rw [hcc]
        simp only [List.mem_cons]
        constructor
        · rintro (hs | hgt)
          · rcases hs with hs | hs
            · exact absurd hs hv
            · exact Or.inl hs
          · exact Or.inr hgt
        · rintro (hs | hgt)
          · exact Or.inl (Or.inr hs)
          · exact Or.inr hgt

def dfC1 : DataFrame :=
  ⟨[("order_id", Dtype.float64)],
    [[("order_id", Value.num 10)], [("order_id", Value.num 10)],
      [("order_id", Value.num 20)]]⟩

/-- C1: the uniqueness rules (S006 on order_id for sales, L005 on lead_id
for leads) flag exactly the rows whose key value occurs more than once in
the column — the first occurrence included — and on order_id values
[10, 10, 20] both rows with value 10 are flagged: `failed_count = 2` and
both are in `failed_sample`. -/
theorem uniqueness_rules_flag_all_duplicates :
    (∀ (df : DataFrame) (m : List Bool),
      S006_order_id_unique.check df = .mask m →
      ∀ i, i < df.rows.length →
        m.getD i false
          = decide (1 < (colOf df "order_id").count
              ((colOf df "order_id").getD i Value.null))) ∧
    (∀ (df : DataFrame) (m : List Bool),
      L005_lead_id_unique.check df = .mask m →
      ∀ i, i < df.rows.length →
        m.getD i false
          = decide (1 < (colOf df "lead_id").count
              ((colOf df "lead_id").getD i Value.null))) ∧
    (S006_order_id_unique.run dfC1).failed_count = 2 ∧
    (S006_order_id_unique.run dfC1).failed_sample
      = [[("order_id", Value.num 10)], [("order_id", Value.num 10)]] := by
  refine ⟨?_, ?_, by decide, by decide⟩
  · intro df m hm i hi
    have h2 : CheckResult.mask (duplicatedKeepFalse (colOf df "order_id"))
        = CheckResult.mask m := hm
    rw [(CheckResult.mask.inj h2).symm, duplicatedKeepFalse]
    have hlen : i < (colOf df "order_id").length := by
      rw [colOf_length]
      exact hi
    rw [duplicatedAux_getD (colOf df "order_id") [] i hlen]
    apply decide_eq_decide.mpr
    simp
  · intro df m hm i hi
    have h2 : CheckResult.mask (duplicatedKeepFalse (colOf df "lead_id"))
        = CheckResult.mask m := hm
    rw [(CheckResult.mask.inj h2).symm, duplicatedKeepFalse]
    have hlen : i < (colOf df "lead_id").length := by
      rw [colOf_length]
      exact hi
    rw [duplicatedAux_getD (colOf df "lead_id") [] i hlen]
    apply decide_eq_decide.mpr
    simp

/-- Witness for C1: the S006 mask at row 0 of the [10, 10, 20] frame, the
first occurrence of a duplicated key. -/
theorem uniqueness_rules_flag_all_duplicates_witness :
    (duplicatedKeepFalse (colOf dfC1 "order_id")).getD 0 false
      = decide (1 < (colOf dfC1 "order_id").count
          ((colOf dfC1 "order_id").getD 0 Value.null)) :=
  uniqueness_rules_flag_all_duplicates.1 dfC1 _ rfl 0 (by decide)

def dfC6 : DataFrame :=
  ⟨[("qty", Dtype.float64), ("unit_price", Dtype.float64),
      ("revenue", Dtype.float64)],
    [[("qty", Value.num 2), ("unit_price", Value.num 100),
        ("revenue", Value.num 199)],
      [("qty", Value.num 2), ("unit_price", Value.num 100),
        ("revenue", Value.num 198)],
      [("qty", Value.num 2), ("unit_price", Value.num 100),
        ("revenue", Value.num (1979/10))]]⟩

def dfC6one : DataFrame :=
  ⟨[("qty", Dtype.float64), ("unit_price", Dtype.float64),
      ("revenue", Dtype.float64)],
    [[("qty", Value.num 2), ("unit_price", Value.num 100),
        ("revenue", Value.num 198)]]⟩

unseal Rat.mul Rat.sub Rat.add Rat.inv in
/-- C6 counterexample: the claim says the row qty=2, unit_price=100,
revenue=198 passes S004, but |2*100 - 198| = 2 > 1, so the code flags the
row and the rule FAILs on a table holding only that row. -/
theorem s004_revenue_198_flagged :
    s004cell (Value.num 2) (Value.num 100) (Value.num 198) = true ∧
    (S004_revenue_consistency.run dfC6one).failed_count = 1 ∧
    (S004_revenue_consistency.run dfC6one).status = "FAIL" := by
  refine ⟨by decide, by decide, by decide⟩

unseal Rat.mul Rat.sub Rat.add Rat.inv in
/-- C6 amended: S004 flags a row exactly when revenue is null or, with all
three fields numeric, |qty*unit_price − revenue| > 1; with qty=2 and
unit_price=100: revenue=199 passes, revenue=198 FAILS (|200−198| = 2 > 1),
revenue=197.9 fails. -/
theorem s004_tolerance_spec :
    (∀ q p : ℚ, s004cell (Value.num q) (Value.num p) Value.null = true) ∧
    (∀ q p r : ℚ,
      s004cell (Value.num q) (Value.num p) (Value.num r) = true
        ↔ 1 < |q * p - r|) ∧
    s004cell (Value.num 2) (Value.num 100) (Value.num 199) = false ∧
    s004cell (Value.num 2) (Value.num 100) (Value.num (1979/10)) = true ∧
    S004_revenue_consistency.check dfC6 = .mask [false, true, true] ∧
    (S004_revenue_consistency.run dfC6).failed_count = 2 := by
  refine ⟨?_, ?_, by decide, by decide, by decide, by decide⟩
  · intro q p
    rfl
  · intro q p r
    simp only [s004cell, Value.isna, Value.mul, Value.sub, Value.absV,
      Value.gtNum, Bool.false_or, decide_eq_true_eq]
    rcases lt_or_le (q * p - r) 0 with hlt | hle
    · rw [if_pos hlt, abs_of_neg hlt]
    · rw [if_neg (not_lt.mpr hle), abs_of_nonneg hle]

def dfC9 : DataFrame :=
  ⟨[("qty", Dtype.float64), ("unit_price", Dtype.float64),
      ("revenue", Dtype.float64)],
    [[("qty", Value.null), ("unit_price", Value.num 100),
        ("revenue", Value.num 199)]]⟩

unseal Rat.mul Rat.sub Rat.add Rat.inv in
/-- C9: a sales row with non-null revenue but null qty or null unit_price
is not flagged by S004 — the product with a null operand is null, the
null-valued tolerance comparison is False — and a row is flagged only for
null revenue or an all-numeric discrepancy above 1. -/
theorem s004_null_operand_not_flagged :
    (∀ (pv : Value) (r : ℚ), s004cell Value.null pv (Value.num r) = false) ∧
    (∀ (qv : Value) (r : ℚ), s004cell qv Value.null (Value.num r) = false) ∧
    (∀ qv pv rv : Value, s004cell qv pv rv = true →
      rv = Value.null ∨ ∃ q p r : ℚ, qv = Value.num q ∧ pv = Value.num p
        ∧ rv = Value.num r ∧ 1 < |q * p - r|) ∧
    (S004_revenue_consistency.run dfC9).failed_count = 0 ∧
    (S004_revenue_consistency.run dfC9).status = "PASS" := by
  refine ⟨?_, ?_, ?_, by decide, by decide⟩
  · intro pv r
    cases pv <;> rfl
  · intro qv r
    cases qv <;> rfl
  · intro qv pv rv h
    cases rv with
    | null => exact Or.inl rfl
    | num r =>
      cases qv with
      | num q =>
        cases pv with
        | num p =>
          right
          refine ⟨q, p, r, rfl, rfl, rfl, ?_⟩
          simp only [s004cell, Value.isna, Value.mul, Value.sub, Value.absV,
            Value.gtNum, Bool.false_or, decide_eq_true_eq] at h
          rcases lt_or_le (q * p - r) 0 with hlt | hle
          · rw [abs_of_neg hlt]
            rwa [if_pos hlt] at h
          · rw [abs_of_nonneg hle]
            rwa [if_neg (not_lt.mpr hle)] at h
        | null => simp [s004cell, Value.isna, Value.mul, Value.sub,
            Value.absV, Value.gtNum] at h
        | str s => simp [s004cell, Value.isna, Value.mul, Value.sub,
            Value.absV, Value.gtNum] at h
        | date d => simp [s004cell, Value.isna, Value.mul, Value.sub,
            Value.absV, Value.gtNum] at h
      | null =>
        cases pv <;> simp [s004cell, Value.isna, Value.mul, Value.sub,
          Value.absV, Value.gtNum] at h
      | str s =>
        cases pv <;> simp [s004cell, Value.isna, Value.mul, Value.sub,
          Value.absV, Value.gtNum] at h
      | date d =>
        cases pv <;> simp [s004cell, Value.isna, Value.mul, Value.sub,
          Value.absV, Value.gtNum] at h
    | str s =>
      cases qv <;> cases pv <;> simp [s004cell, Value.isna, Value.mul,
        Value.sub, Value.absV, Value.gtNum] at h
    | date d =>
      cases qv <;> cases pv <;> simp [s004cell, Value.isna, Value.mul,
        Value.sub, Value.absV, Value.gtNum] at h

unseal Rat.mul Rat.sub Rat.add Rat.inv in
/-- Witness for C9: the completeness implication applied at a concrete
null-revenue row, with the flag evaluated by `decide`. -/
theorem s004_null_operand_not_flagged_witness :
    Value.null = Value.null ∨ ∃ q p r : ℚ, Value.num 2 = Value.num q
      ∧ Value.num 100 = Value.num p ∧ Value.null = Value.num r
      ∧ 1 < |q * p - r| :=
  s004_null_operand_not_flagged.2.2.1 (Value.num 2) (Value.num 100) Value.null
    (by decide)

def dfC10 : DataFrame :=
  ⟨[("email", Dtype.string)], [[("email", Value.null)]]⟩

/-- C10: a leads row with null email is flagged by L001 — the null is
rendered as pandas' missing-value placeholder text by `astype(str)`, the
placeholder never matches the email pattern, so a missing email is
reported as a format failure rather than skipped. -/
theorem l001_null_email_flagged :
    emailMatch (Value.astypePyStr Value.null) = false ∧
    (∀ (df : DataFrame) (m : List Bool),
      L001_email_format.check df = .mask m →
      ∀ i, i < df.rows.length →
        (colOf df "email").getD i Value.null = Value.null →
        m.getD i false = true) ∧
    (L001_email_format.run dfC10).failed_count = 1 ∧
    (L001_email_format.run dfC10).status = "FAIL" := by
  refine ⟨by decide, ?_, by decide, by decide⟩
  intro df m hm i hi hnull
  have h2 : CheckResult.mask ((colOf df "email").map
      (fun v => !(emailMatch (Value.astypePyStr v)))) = CheckResult.mask m := hm
  rw [(CheckResult.mask.inj h2).symm]
  have hlen : i < (colOf df "email").length := by
    rw [colOf_length]
    exact hi
  rw [List.getD_eq_getElem _ _ (by simpa using hlen), List.getElem_map]
  rw [List.getD_eq_getElem _ _ hlen] at hnull
  rw [hnull]
  decide

/-- Witness for C10: the mask entry for the single null-email row of a
concrete frame. -/
theorem l001_null_email_flagged_witness :
    ((colOf dfC10 "email").map
      (fun v => !(emailMatch (Value.astypePyStr v)))).getD 0 false = true :=
  l001_null_email_flagged.2.1 dfC10 _ rfl 0 (by decide) (by decide)

/-- C2: flexible date parsing makes one global choice per column: both
interpretations are applied, the fraction of non-null parses is computed
for each, and the interpretation with the higher success rate is applied
to the whole column (unparseable cells become null); on a tie the
day-first interpretation wins because `>=` is used with day-first
evaluated first. -/
theorem parse_dates_flex_global_choice (pDay pMonth : String → Option ℕ)
    (df : DataFrame) (col : String) (h : col ∈ colNames df) :
    (colOf (parse_dates_flex pDay pMonth df col) col
      = (if rateSome (((colOf df col).map Value.astypeString).map
              (fun o => o.bind pDay))
            ≥ rateSome (((colOf df col).map Value.astypeString).map
              (fun o => o.bind pMonth))
        then ((colOf df col).map Value.astypeString).map (fun o => o.bind pDay)
        else ((colOf df col).map Value.astypeString).map
          (fun o => o.bind pMonth)).map optToDate)
    ∧ (rateSome (((colOf df col).map Value.astypeString).map (fun o => o.bind pDay))
        = rateSome (((colOf df col).map Value.astypeString).map (fun o => o.bind pMonth)) →
      colOf (parse_dates_flex pDay pMonth df col) col
        = (((colOf df col).map Value.astypeString).map (fun o => o.bind pDay)).map optToDate)
    ∧ (rateSome (((colOf df col).map Value.astypeString).map (fun o => o.bind pMonth))
        < rateSome (((colOf df col).map Value.astypeString).map (fun o => o.bind pDay)) →
      colOf (parse_dates_flex pDay pMonth df col) col
        = (((colOf df col).map Value.astypeString).map (fun o => o.bind pDay)).map optToDate)
    ∧ (rateSome (((colOf df col).map Value.astypeString).map (fun o => o.bind pDay))
        < rateSome (((colOf df col).map Value.astypeString).map (fun o => o.bind pMonth)) →
      colOf (parse_dates_flex pDay pMonth df col) col
        = (((colOf df col).map Value.astypeString).map (fun o => o.bind pMonth)).map optToDate) := by
  have hany := (any_beq_iff_mem df col).mpr h
  have hmain : colOf (parse_dates_flex pDay pMonth df col) col
      = (if rateSome (((colOf df col).map Value.astypeString).map
              (fun o => o.bind pDay))
            ≥ rateSome (((colOf df col).map Value.astypeString).map
              (fun o => o.bind pMonth))
        then ((colOf df col).map Value.astypeString).map (fun o => o.bind pDay)
        else ((colOf df col).map Value.astypeString).map
          (fun o => o.bind pMonth)).map optToDate := by
    unfold parse_dates_flex
    rw [if_pos hany]
    simp only [colOf_setColPw_self]
    by_cases hge : rateSome (((colOf df col).map Value.astypeString).map
          (fun o => o.bind pDay))
        ≥ rateSome (((colOf df col).map Value.astypeString).map
          (fun o => o.bind pMonth))
    · simp only [List.map_map] at hge ⊢
      simp only [if_pos hge, List.map_map]
      rfl
    · simp only [List.map_map] at hge ⊢
      simp only [if_neg hge, List.map_map]
      rfl
  refine ⟨hmain, ?_, ?_, ?_⟩
  · intro heq
    rw [hmain, if_pos (ge_of_eq heq)]
  · intro hlt
    rw [hmain, if_pos (le_of_lt hlt)]
  · intro hlt
    rw [hmain, if_neg (not_le.mpr hlt)]

def pDayC2 : String → Option ℕ := fun s => if s = "a" then some 1 else none

def pMonthC2 : String → Option ℕ := fun _ => none

def dfC2 : DataFrame :=
  ⟨[("order_date", Dtype.object)],
    [[("order_date", Value.str "a")], [("order_date", Value.str "b")]]⟩

unseal Rat.inv Rat.mul in
/-- Witness for C2: with a day-first interpretation succeeding on half the
column and a month-first one succeeding nowhere, day-first is applied to
every cell and unparseable cells become null. -/
theorem parse_dates_flex_global_choice_witness :
    colOf (parse_dates_flex pDayC2 pMonthC2 dfC2 "order_date") "order_date"
      = [Value.date 1, Value.null] := by
  have h := (parse_dates_flex_global_choice pDayC2 pMonthC2 dfC2 "order_date"
    (by decide)).1
  rw [h]
  rfl

theorem dropDupFirst_sublist (key : Row → List Value) (l : List Row) :
    ∀ seen, List.Sublist (dropDupFirst key seen l) l := by
  induction l with
  | nil =>
    intro seen
    simp [dropDupFirst]
  | cons r t ih =>
    intro seen
    rw [dropDupFirst]
    split
    · exact (ih seen).cons r
    · exact (ih (key r :: seen)).cons₂ r

theorem dropDupFirst_not_seen (key : Row → List Value) (l : List Row) :
    ∀ seen, ∀ r ∈ dropDupFirst key seen l, key r ∉ seen := by
  induction l with
  | nil =>
    intro seen r hr
    simp [dropDupFirst] at hr
  | cons r t ih =>
    intro seen x hx
    rw [dropDupFirst] at hx
    split at hx
    · exact ih seen x hx
    · next hns =>
      rcases List.mem_cons.mp hx with hx | hx
      · rw [hx]
        exact hns
      · have := ih (key r :: seen) x hx
        exact fun hc => this (List.mem_cons_of_mem _ hc)

theorem dropDupFirst_keys_nodup (key : Row → List Value) (l : List Row) :
    ∀ seen, ((dropDupFirst key seen l).map key).Nodup := by
  induction l with
  | nil =>
    intro seen
    simp [dropDupFirst]
  | cons r t ih =>
    intro seen
    rw [dropDupFirst]
    split
    · exact ih seen
    · rw [List.map_cons, List.nodup_cons]
      constructor
      · intro hmem
        obtain ⟨x, hx, hkey⟩ := List.mem_map.mp hmem
        exact dropDupFirst_not_seen key t (key r :: seen) x hx
          (hkey ▸ List.mem_cons_self _ _)
      · exact ih (key r :: seen)

theorem dropDupFirst_find? (key : Row → List Value) (l : List Row) :
    ∀ (seen : List (List Value)) (v : List Value), v ∉ seen →
      (dropDupFirst key seen l).find? (fun r => key r == v)
        = l.find? (fun r => key r == v) := by
  induction l with
  | nil =>
    intro seen v _
    rfl
  | cons r t ih =>
    intro seen v hv
    rw [dropDupFirst]
    split
    · next hseen =>
      have hne : (key r == v) = false :=
        beq_eq_false_iff_ne.mpr (fun he => hv (he ▸ hseen))
      rw [List.find?_cons_of_neg _ (by simp [hne]), ih seen v hv]
    · next hseen =>
      by_cases hrv : key r = v
      · have hpos : (key r == v) = true := beq_iff_eq.mpr hrv
        rw [List.find?_cons_of_pos (p := fun x => key x == v) (a := r) _ hpos,
          List.find?_cons_of_pos (p := fun x => key x == v) (a := r) _ hpos]
      · have hne : (key r == v) = false := beq_eq_false_iff_ne.mpr hrv
        have hv2 : v ∉ key r :: seen := by
          intro hc
          rcases List.mem_cons.mp hc with hc | hc
          · exact hrv hc.symm
          · exact hv hc
        rw [List.find?_cons_of_neg _ (by simp [hne]),
          List.find?_cons_of_neg _ (by simp [hne]), ih (key r :: seen) v hv2]

def dfC5 : DataFrame :=
  ⟨[("id", Dtype.float64), ("x", Dtype.object)],
    [[("id", Value.num 1), ("x", Value.str "a")],
      [("id", Value.num 2), ("x", Value.str "b")],
      [("id", Value.num 1), ("x", Value.str "c")]]⟩

def dfC5out : DataFrame :=
  ⟨[("id", Dtype.float64), ("x", Dtype.object)],
    [[("id", Value.num 1), ("x", Value.str "a")],
      [("id", Value.num 2), ("x", Value.str "b")]]⟩

/-- C5: deduplication keeps, for each primary-key value, only the first
occurrence in original row order: the output is a sublist of the input (so
output row count ≤ input row count), surviving key values are unique, and
for every key value the first matching row is unchanged; the step is a
no-op when the key column is absent.  On rows
[(id 1, x a), (id 2, x b), (id 1, x c)] keyed by id, the first two rows
survive. -/
theorem deduplicate_first_occurrence_spec :
    (∀ (df : DataFrame) (pk : String), pk ∉ colNames df → dedup_step df pk = df) ∧
    (∀ (df : DataFrame) (pk : String), pk ∈ colNames df →
      dedup_step df pk = deduplicate df [pk]) ∧
    (∀ (df : DataFrame) (s : List String),
      List.Sublist (deduplicate df s).rows df.rows
        ∧ (deduplicate df s).rows.length ≤ df.rows.length
        ∧ (deduplicate df s).cols = df.cols) ∧
    (∀ (df : DataFrame) (pk : String),
      ((deduplicate df [pk]).rows.map (fun r => Row.get r pk)).Nodup) ∧
    (∀ (df : DataFrame) (pk : String) (v : List Value),
      (deduplicate df [pk]).rows.find? (fun r => [Row.get r pk] == v)
        = df.rows.find? (fun r => [Row.get r pk] == v)) ∧
    dedup_step dfC5 "id" = dfC5out := by
  refine ⟨?_, ?_, ?_, ?_, ?_, by decide⟩
  · intro df pk hno
    unfold dedup_step
    rw [if_neg hno]
  · intro df pk hyes
    unfold dedup_step
    rw [if_pos hyes]
  · intro df s
    refine ⟨dropDupFirst_sublist _ df.rows [], ?_, rfl⟩
    exact (dropDupFirst_sublist _ df.rows []).length_le
  · intro df pk
    have h := dropDupFirst_keys_nodup (fun r => [Row.get r pk]) df.rows []
    have hcomp : (fun r => [Row.get r pk])
        = (fun v => [v]) ∘ (fun r => Row.get r pk) := rfl
    rw [hcomp, ← List.map_map] at h
    exact h.of_map _
  · intro df pk v
    exact dropDupFirst_find? (fun r => [Row.get r pk]) df.rows [] v
      (List.not_mem_nil v)

/-- Witness for C5: the no-op branch at a concrete frame lacking the key
column, and the guarded branch at the concrete example frame. -/
theorem deduplicate_first_occurrence_spec_witness :
    dedup_step dfC5 "missing_key" = dfC5 ∧
    dedup_step dfC5 "id" = deduplicate dfC5 ["id"] :=
  ⟨deduplicate_first_occurrence_spec.1 dfC5 "missing_key" (by decide),
    deduplicate_first_occurrence_spec.2.1 dfC5 "id" (by decide)⟩

theorem coerce_step_dtype_other (d : DataFrame) (c c' : String) (h : c' ≠ c) :
    dtypeOf (if d.cols.any (fun p => p.1 == c)
        then setColPw d c coerceCell Dtype.float64 else d) c'
      = dtypeOf d c' := by
  split
  · exact dtypeOf_setColPw_other d c c' _ _ h
  · rfl

theorem coerce_step_mem (d : DataFrame) (c c' : String) (h : c' ∈ colNames d) :
    c' ∈ colNames (if d.cols.any (fun p => p.1 == c)
      then setColPw d c coerceCell Dtype.float64 else d) := by
  split
  · exact mem_colNames_setColPw d c c' _ _ h
  · exact h

theorem coerce_step_dtype_self (d : DataFrame) (c : String) (h : c ∈ colNames d) :
    dtypeOf (if d.cols.any (fun p => p.1 == c)
        then setColPw d c coerceCell Dtype.float64 else d) c
      = some Dtype.float64 := by
  rw [if_pos ((any_beq_iff_mem d c).mpr h)]
  exact dtypeOf_setColPw_self d c _ _

/-- C7: the sales revenue re-processing (remove dots as thousands
separators, replace commas by dots, coerce numeric again) runs exactly
when the revenue column's dtype is still object after the generic
coercion; and since `pd.to_numeric(errors="coerce")` always produces a
float column, after the generic coercion over the sales numeric columns
the revenue dtype is float64, the condition is false, and revenue is left
exactly as the generic coercion produced it. -/
theorem revenue_refix_spec :
    (∀ df : DataFrame, dtypeOf df "revenue" = some Dtype.object →
      sales_revenue_fix df
        = coerce_numeric
            (setColPw df "revenue"
              (fun v => Value.str (commaToDotStr (removeDots (Value.astypePyStr v))))
              Dtype.object) ["revenue"]) ∧
    (∀ df : DataFrame, dtypeOf df "revenue" ≠ some Dtype.object →
      sales_revenue_fix df = df) ∧
    (∀ df : DataFrame, "revenue" ∈ colNames df →
      dtypeOf (coerce_numeric df salesNumCols) "revenue" = some Dtype.float64) ∧
    (∀ df : DataFrame, "revenue" ∈ colNames df →
      sales_revenue_fix (coerce_numeric df salesNumCols)
        = coerce_numeric df salesNumCols) := by
  have hobj : ∀ df : DataFrame, dtypeOf df "revenue" = some Dtype.object →
      sales_revenue_fix df
        = coerce_numeric
            (setColPw df "revenue"
              (fun v => Value.str (commaToDotStr (removeDots (Value.astypePyStr v))))
              Dtype.object) ["revenue"] := by
    intro df h
    unfold sales_revenue_fix
    rw [if_pos h]
  have hnot : ∀ df : DataFrame, dtypeOf df "revenue" ≠ some Dtype.object →
      sales_revenue_fix df = df := by
    intro df h
    unfold sales_revenue_fix
    rw [if_neg h]
  have hdt : ∀ df : DataFrame, "revenue" ∈ colNames df →
      dtypeOf (coerce_numeric df salesNumCols) "revenue"
        = some Dtype.float64 := by
    intro df h
    unfold coerce_numeric salesNumCols
    simp only [List.foldl_cons, List.foldl_nil]
    have h1 := coerce_step_mem df "order_id" "revenue" h
    have h2 := coerce_step_mem _ "customer_id" "revenue" h1
    have h3 := coerce_step_mem _ "qty" "revenue" h2
    have h4 := coerce_step_mem _ "unit_price" "revenue" h3
    exact coerce_step_dtype_self _ "revenue" h4
  refine ⟨hobj, hnot, hdt, ?_⟩
  intro df h
  apply hnot
  rw [hdt df h]
  simp

def dfC7obj : DataFrame :=
  ⟨[("revenue", Dtype.object)], [[("revenue", Value.str "1.234,5")]]⟩

def dfC7 : DataFrame :=
  ⟨[("revenue", Dtype.object)], [[("revenue", Value.str "200")]]⟩

/-- Witness for C7: the re-processing branch fires on a concrete frame
whose revenue dtype is object, and after generic sales coercion of a
concrete frame the fix step is the identity. -/
theorem revenue_refix_spec_witness :
    sales_revenue_fix dfC7obj
      = coerce_numeric
          (setColPw dfC7obj "revenue"
            (fun v => Value.str (commaToDotStr (removeDots (Value.astypePyStr v))))
            Dtype.object) ["revenue"] ∧
    sales_revenue_fix (coerce_numeric dfC7 salesNumCols)
      = coerce_numeric dfC7 salesNumCols :=
  ⟨revenue_refix_spec.1 dfC7obj rfl,
    revenue_refix_spec.2.2.2 dfC7 (by decide)⟩

theorem renderQChars_chars (q : ℚ) :
    ∀ c ∈ renderQChars q, c.isDigit = true ∨ c = '-' ∨ c = '.' := by
  intro c hc
  unfold renderQChars at hc
  simp only [List.mem_append, List.mem_cons, List.mem_replicate] at hc
  rcases hc with (hneg | hdig) | hdot | hzero | hdig
  · by_cases hn : q.num < 0
    · rw [if_pos hn] at hneg
      simp at hneg
      exact Or.inr (Or.inl hneg)
    · rw [if_neg hn] at hneg
      simp at hneg
  · exact Or.inl (natToDigits_all_digit _ c hdig)
  · exact Or.inr (Or.inr hdot)
  · rw [hzero.2]
    exact Or.inl (by decide)
  · exact Or.inl (natToDigits_all_digit _ c hdig)

theorem keepNum_render (q : ℚ) :
    keepNumChars (renderQChars q) = renderQChars q := by
  unfold keepNumChars
  apply List.filter_eq_self.mpr
  intro c hc
  rcases renderQChars_chars q c hc with h | h | h
  · simp [h]
  · simp [h]
  · simp [h]

theorem commaToDot_render (q : ℚ) :
    commaToDot (renderQChars q) = renderQChars q := by
  have hcongr : ∀ c ∈ renderQChars q, (if c = ',' then '.' else c) = id c := by
    intro c hc
    rcases renderQChars_chars q c hc with h | h | h
    · rw [if_neg (digit_ne_comma h)]
      rfl
    · rw [if_neg (by rw [h]; decide)]
      rfl
    · rw [if_neg (by rw [h]; decide)]
      rfl
  unfold commaToDot
  rw [List.map_congr_left hcongr, List.map_id]

theorem parseUnsignedChars_den_dvd (ds : List Char) (q : ℚ)
    (h : parseUnsignedChars ds = some q) : ∃ K, q.den ∣ 10 ^ K := by
  unfold parseUnsignedChars at h
  split at h
  · split at h
    · refine ⟨0, ?_⟩
      have hq : q = (natVal ds : ℚ) := (Option.some.inj h).symm
      rw [hq, Rat.den_natCast, pow_zero]
    · exact absurd h (by simp)
  · next as bs hsp =>
    split at h
    · have hq : q = (natVal as : ℚ) + (natVal bs : ℚ) / 10 ^ bs.length :=
        (Option.some.inj h).symm
      refine ⟨bs.length, ?_⟩
      have hqd : q = ((natVal as * 10 ^ bs.length + natVal bs : ℕ) : ℚ)
          / (((10 : ℕ) ^ bs.length : ℕ) : ℚ) := by
        rw [hq]
        have h10 : (((10 : ℕ) ^ bs.length : ℕ) : ℚ) ≠ 0 := by
          push_cast
          exact pow_ne_zero _ (by norm_num)
        field_simp
      have hdvd := Rat.den_dvd ((natVal as * 10 ^ bs.length + natVal bs : ℕ) : ℤ)
        (((10 : ℕ) ^ bs.length : ℕ) : ℤ)
      rw [Rat.divInt_eq_div] at hdvd
      have hcast : (((natVal as * 10 ^ bs.length + natVal bs : ℕ) : ℤ) : ℚ)
            / ((((10 : ℕ) ^ bs.length : ℕ) : ℤ) : ℚ) = q := by
        rw [hqd]
        push_cast
        ring
      rw [hcast] at hdvd
      exact_mod_cast hdvd
    · exact absurd h (by simp)

theorem parseDecChars_den_dvd (cs : List Char) (q : ℚ)
    (h : parseDecChars cs = some q) : ∃ K, q.den ∣ 10 ^ K := by
  unfold parseDecChars at h
  split at h
  · exact absurd h (by simp)
  · split at h
    · obtain ⟨u, hu, hneg⟩ := Option.map_eq_some'.mp h
      obtain ⟨K, hK⟩ := parseUnsignedChars_den_dvd _ u hu
      refine ⟨K, ?_⟩
      rw [← hneg]
      simpa using hK
    · exact parseUnsignedChars_den_dvd _ q h

/-- A coerced cell that `str` keeps in plain decimal: a missing cell, or
a number that is zero or of magnitude in [1e-4, 1e16). -/
def plainCellB : Value → Bool
  | Value.num q => !(sciCond q)
  | _ => true

theorem coerceCell_idem_plain (v : Value)
    (h : plainCellB (coerceCell v) = true) :
    coerceCell (coerceCell v) = coerceCell v := by
  cases hv : v.astypeString with
  | none =>
    have h1 : coerceCell v = Value.null := by
      unfold coerceCell
      rw [hv]
    rw [h1]
    rfl
  | some s =>
    have h1 : coerceCell v
        = match parseDecChars (commaToDot (keepNumChars s.toList)) with
          | some q => Value.num q
          | none => Value.null := by
      unfold coerceCell
      rw [hv]
    cases hp : parseDecChars (commaToDot (keepNumChars s.toList)) with
    | none =>
      have h2 : coerceCell v = Value.null := by
        rw [h1, hp]
      rw [h2]
      rfl
    | some q =>
      have h2 : coerceCell v = Value.num q := by
        rw [h1, hp]
      rw [h2] at h ⊢
      have hsci : sciCond q = false := by
        simpa [plainCellB] using h
      have hrender : renderFloatChars q = renderQChars q := by
        unfold renderFloatChars
        rw [hsci]
        rfl
      have hdvd := parseDecChars_den_dvd _ q hp
      have hparse : parseDecChars (renderQChars q) = some q := parse_render q hdvd
      have h3 : coerceCell (Value.num q)
          = match parseDecChars (commaToDot (keepNumChars (renderFloatChars q))) with
            | some q' => Value.num q'
            | none => Value.null := rfl
      rw [h3, hrender, keepNum_render, commaToDot_render, hparse]

set_option maxRecDepth 10000 in
unseal Rat.mul Rat.add Rat.inv in
/-- C8 counterexample: numeric coercion is not idempotent — the cell
"0.00001" coerces to 1e-05, which `str` renders in scientific notation;
stripping `[^\d\-.,]` removes the `e` and leaves "1-05", which
`pd.to_numeric` cannot parse, so the second coercion yields null. -/
theorem coerce_numeric_not_idempotent :
    coerceCol [Value.str "0.00001"] = [Value.num (mkRat 1 100000)] ∧
    coerceCol (coerceCol [Value.str "0.00001"]) = [Value.null] ∧
    coerceCol (coerceCol [Value.str "0.00001"])
      ≠ coerceCol [Value.str "0.00001"] := by
  refine ⟨by decide, by decide, by decide⟩

/-- C8 amended: numeric coercion is idempotent on every column whose
coerced values stay in the plain-decimal rendering regime of `str` (zero
or magnitude in [1e-4, 1e16)); outside it the scientific-notation
characters are stripped before re-parsing and the value changes. -/
theorem coerce_numeric_idempotent_plain (l : List Value)
    (h : ∀ v ∈ coerceCol l, plainCellB v = true) :
    coerceCol (coerceCol l) = coerceCol l := by
  unfold coerceCol
  rw [List.map_map]
  apply List.map_congr_left
  intro v hv
  exact coerceCell_idem_plain v
    (h (coerceCell v) (List.mem_map.mpr ⟨v, hv, rfl⟩))

unseal Rat.mul Rat.add Rat.inv in
/-- Witness for the amended C8 on a concrete column whose coerced value
197.9 is rendered in plain decimal. -/
theorem coerce_numeric_idempotent_plain_witness :
    coerceCol (coerceCol [Value.str "197.9"]) = coerceCol [Value.str "197.9"] :=
  coerce_numeric_idempotent_plain [Value.str "197.9"] (by decide)

unseal Rat.mul Rat.sub Rat.add Rat.inv in
/-- Witness for the amended C6 statement at concrete inputs. -/
theorem s004_tolerance_spec_witness :
    s004cell (Value.num 2) (Value.num 100) Value.null = true ∧
    (s004cell (Value.num 2) (Value.num 100) (Value.num 198) = true
      ↔ 1 < |(2 : ℚ) * 100 - 198|) :=
  ⟨s004_tolerance_spec.1 2 100, s004_tolerance_spec.2.1 2 100 198⟩
